import Mathlib

/-!
Verification of the photo-backup program in `src/main.py` (a VK → Yandex.Disk
album copier).  The program is embedded shallowly: Python dictionaries become
structures, HTTP traffic becomes an explicit oracle of `Response` values, the
`exit()` calls of `response_processing` become an `Except Halt` result, and the
outbound network requests are collected in an explicit `NetCall` trace.
-/

section Definitions

/-! ### Decimal rendering

Python renders `info['likes']` with `f"{info['likes']}"`, i.e. the builtin
decimal notation of an integer.  `decCharsCore` is the usual fuel-bounded
digit loop (the fuel `n + 1` always suffices since the loop needs at most
`n` divisions by 10). -/

def decCharsCore : Nat → Nat → List Char → List Char
  | 0, _, acc => acc
  | fuel + 1, n, acc =>
    if n < 10 then Nat.digitChar n :: acc
    else decCharsCore fuel (n / 10) (Nat.digitChar (n % 10) :: acc)

/-- Decimal digits of a natural number, most significant first. -/
def decChars (n : Nat) : List Char :=
  decCharsCore (n + 1) n []

/-- Decimal notation of an integer, with a leading minus sign when negative:
the character list of Python `str(i)`. -/
def intChars (i : Int) : List Char :=
  if i < 0 then '-' :: decChars (-i).toNat else decChars i.toNat

/-- Python `str(i)` / `f"{i}"` for an integer `i`. -/
def int_str (i : Int) : String :=
  String.mk (intChars i)

/-- Value of a digit string, used to reason about decimal rendering. -/
def decodeDec (cs : List Char) : Nat :=
  cs.foldl (fun a c => a * 10 + (c.toNat - 48)) 0

/-! ### Calendar conversion

The source formats upload dates with
`time.strftime('%d_%m_%Y', time.localtime(info['date']))`.  `time.localtime`
converts POSIX seconds to a local Gregorian calendar date; it is modelled here
(for a timezone of constant offset `tz` seconds, no DST) by the textbook
conversion: floor-divide into days, then walk years from 1970 and months
through the month-length table. -/

/-- Gregorian leap-year rule. -/
def isLeap (y : Int) : Bool :=
  (y % 4 == 0 && y % 100 != 0) || (y % 400 == 0)

def daysInYear (y : Int) : Int :=
  if isLeap y then 366 else 365

def monthLengths (leap : Bool) : List Int :=
  [31, if leap then 29 else 28, 31, 30, 31, 30, 31, 31, 30, 31, 30, 31]

/-- Walk from year `y` until the day offset `rem` falls inside a year;
returns the year and the day-of-year offset.  Fuel-bounded so that the
recursion is structural. -/
def yearSearch : Nat → Int → Int → Int × Int
  | 0, y, rem => (y, rem)
  | fuel + 1, y, rem =>
    if rem < 0 then yearSearch fuel (y - 1) (rem + daysInYear (y - 1))
    else if daysInYear y ≤ rem then yearSearch fuel (y + 1) (rem - daysInYear y)
    else (y, rem)

/-- Walk the month-length table: from a day-of-year offset produce the
1-based month (starting at `m`) and 1-based day of month. -/
def monthSearch : List Int → Int → Int → Int × Int
  | [], m, rem => (m, rem + 1)
  | len :: rest, m, rem =>
    if rem < len then (m, rem + 1) else monthSearch rest (m + 1) (rem - len)

/-- Days since the POSIX epoch of local time `t + tz` (floor division). -/
def epochDays (tz t : Int) : Int :=
  (t + tz) / 86400

/-- Year and day-of-year of POSIX time `t` at constant timezone offset `tz`;
the fuel bound is generous enough for the year walk to land (proved below). -/
def yearOf (tz t : Int) : Int × Int :=
  yearSearch ((epochDays tz t).natAbs / 365 + 3) 1970 (epochDays tz t)

/-- Local calendar date `(year, month, day)` of POSIX time `t` in a timezone
of constant offset `tz` seconds: the model of `time.localtime(t)[:3]`. -/
def local_date (tz t : Int) : Int × Int × Int :=
  ((yearOf tz t).1, monthSearch (monthLengths (isLeap (yearOf tz t).1)) 1 (yearOf tz t).2)

/-- Zero-padded two-digit rendering, as produced by `strftime` `%d` / `%m`. -/
def pad2Chars (n : Int) : List Char :=
  if n < 10 then '0' :: intChars n else intChars n

/-- Character list of `strftime('%d_%m_%Y', ...)` for calendar day `d`,
month `m`, year `y`. -/
def dmYChars (d m y : Int) : List Char :=
  pad2Chars d ++ '_' :: (pad2Chars m ++ '_' :: intChars y)

/-- The string `time.strftime('%d_%m_%Y', time.localtime(t))` for a timezone
of constant offset `tz`. -/
def strftime_dmY (tz t : Int) : String :=
  let ymd := local_date tz t
  String.mk (dmYChars ymd.2.2 ymd.2.1 ymd.1)

/-! ### Data model -/

/-- One element of the list built by `VKClient.get_photos_info`
(`src/main.py` lines 68–72): the dictionary
`{'likes': …, 'url': …, 'date': …, 'height': …, 'width': …}`. -/
structure FileInfo where
  likes : Int
  url : String
  date : Int
  height : Int
  width : Int
  deriving DecidableEq

/-- Line 119 of `src/main.py`:
`{name if names.count(name) > 1 else None for name in names}` —
the set is modelled as a deduplicated list of `Option Int`. -/
def duplicate_names (names : List Int) : List (Option Int) :=
  (names.map fun name => if 1 < names.count name then some name else none).dedup

/-- Lines 131–132 of `src/main.py`: the assigned file name of one record.
`base_name + f"-{strftime(…)}" if info['likes'] in duplicate_names else base_name`. -/
def filename (dups : List (Option Int)) (tz : Int) (info : FileInfo) : String :=
  let base_name := int_str info.likes
  if some info.likes ∈ dups then base_name ++ "-" ++ strftime_dmY tz info.date
  else base_name

/-- The complete filename-assignment pass of `upload_files`
(lines 118–119 and 131–132 of `src/main.py`), as the pure per-run transform
the specification calls `assignNames`. -/
def assignNames (tz : Int) (files_info : List FileInfo) : List String :=
  files_info.map (filename (duplicate_names (files_info.map FileInfo.likes)) tz)

/-! ### HTTP responses and the shared validation helper -/

/-- One item of `response['response']['items']` from the VK API, with the
nested fields the program reads: `likes.count`, `orig_photo.url`,
`orig_photo.height`, `orig_photo.width`, `date`. -/
structure VKItem where
  likes_count : Int
  orig_url : String
  orig_height : Int
  orig_width : Int
  date : Int
  deriving DecidableEq

/-- Body of an HTTP response.  `notJson` is a body on which `response.json()`
raises; `json error response_items href` models a JSON object with an optional
top-level error object (carrying its `error_msg` string), an optional
`response.items` list and an optional `href` field. -/
inductive Body where
  | notJson : Body
  | json (error : Option String) (response_items : Option (List VKItem)) (href : Option String) : Body
  deriving DecidableEq

structure Response where
  status_code : Nat
  body : Body
  deriving DecidableEq

/-- How a run terminates early.  The first three constructors are the
taxonomy raised by `response_processing` (which prints and calls `exit()`);
`pyExc` is an uncaught Python exception such as `TypeError` or
`json.JSONDecodeError`. -/
inductive Halt where
  | clientError (code : Nat)
  | serverError (code : Nat)
  | apiError (msg : String)
  | pyExc (kind : String)
  deriving DecidableEq

/-- Lines 14–32 of `src/main.py`: status-code bucketing, then a JSON decode
and the application-level error check. -/
def response_processing (response : Response) : Except Halt Unit :=
  let code := response.status_code
  if 400 ≤ code ∧ code < 500 then Except.error (Halt.clientError code)
  else if 500 ≤ code ∧ code < 600 then Except.error (Halt.serverError code)
  else
    match response.body with
    | Body.notJson => Except.error (Halt.pyExc "JSONDecodeError")
    | Body.json error _ _ =>
      match error with
      | some msg => Except.error (Halt.apiError msg)
      | none => Except.ok ()

/-- The single line printed on stdout by a halt: the `print(...)` preceding
each `exit()` in `response_processing`.  An uncaught exception prints no
stdout line (its traceback goes to stderr). -/
def Halt.message : Halt → Option String
  | Halt.clientError code => some s!"Client error {code}"
  | Halt.serverError code => some s!"Server error {code}"
  | Halt.apiError msg => some s!"Error. {msg}"
  | Halt.pyExc _ => none

/-- Process exit status of a halt.  The bare `exit()` calls in
`response_processing` raise `SystemExit(None)`, which terminates the
interpreter with status 0; an uncaught exception terminates with status 1. -/
def Halt.exit_code : Halt → Nat
  | Halt.pyExc _ => 1
  | _ => 0

/-- Whether a halt is one of the three terminal errors of the spec's taxonomy
(`ClientError` / `ServerError` / `ApiError`), as opposed to an uncaught
exception. -/
def Halt.is_taxonomy : Halt → Bool
  | Halt.pyExc _ => false
  | _ => true

/-! ### VKClient -/

/-- The immutable request parameters stored by `VKClient.__init__`
(lines 39–44 of `src/main.py`). -/
structure VKClient where
  access_token : String
  owner_id : String
  extended : String
  v : String
  deriving DecidableEq

/-- `VKClient.__init__(self, vk_token, user_id, version)`: the third
positional argument is bound to the API-version parameter `v`. -/
def VKClient.init (vk_token user_id version : String) : VKClient :=
  { access_token := vk_token, owner_id := user_id, extended := "1", v := version }

/-- One outbound network request of the program. -/
inductive NetCall where
  | vkGet (access_token owner_id extended v album_id : String)
  | diskPut (path : String)
  | diskPost (path : String) (url : String)
  deriving DecidableEq

/-- `VKClient.get_photos_info` (lines 46–74 of `src/main.py`) as a function of
the response the network returns: issues one GET, validates the response, then
maps `response['response']['items']` into the flat record list. -/
def get_photos_info (client : VKClient) (album_id : String) (response : Response) :
    NetCall × Except Halt (List FileInfo) :=
  (NetCall.vkGet client.access_token client.owner_id client.extended client.v album_id,
    match response_processing response with
    | Except.error h => Except.error h
    | Except.ok _ =>
      match response.body with
      | Body.notJson => Except.error (Halt.pyExc "JSONDecodeError")
      | Body.json _ response_items _ =>
        match response_items with
        | none => Except.error (Halt.pyExc "KeyError")
        | some items =>
          Except.ok (items.map fun item =>
            { likes := item.likes_count, url := item.orig_url, date := item.date,
              height := item.orig_height, width := item.orig_width }))

/-! ### DiskClient -/

/-- One element of the manifest's `items` list (lines 137–140 of
`src/main.py`). -/
structure UploadedItem where
  name : String
  href : String
  height : Int
  width : Int
  deriving DecidableEq

/-- The `output_json` dictionary returned by `upload_files`
(lines 123–128 of `src/main.py`). -/
structure Manifest where
  href : String
  name : String
  date : Int
  count : Nat
  items : List UploadedItem
  deriving DecidableEq

/-- Reading `response.json()['href']`. -/
def json_href (body : Body) : Except Halt String :=
  match body with
  | Body.notJson => Except.error (Halt.pyExc "JSONDecodeError")
  | Body.json _ _ href =>
    match href with
    | some h => Except.ok h
    | none => Except.error (Halt.pyExc "KeyError")

/-- The upload loop of `upload_files` (lines 130–140 of `src/main.py`): for
each record, one POST to `{BASE_URL}/upload` with `path = dirname/filename`
and `url = info['url']`, then validation and the `href` read.  Returns the
trace of issued requests and either the accumulated `items` list or the halt
that aborted the loop.  An exhausted response oracle models a transport
failure of `requests.post`. -/
def upload_loop (dups : List (Option Int)) (tz : Int) (dirname : String) :
    List FileInfo → List Response → List NetCall × Except Halt (List UploadedItem)
  | [], _ => ([], Except.ok [])
  | info :: rest, responses =>
    let call := NetCall.diskPost (dirname ++ "/" ++ filename dups tz info) info.url
    match responses with
    | [] => ([call], Except.error (Halt.pyExc "ConnectionError"))
    | response :: responses_rest =>
      match response_processing response with
      | Except.error h => ([call], Except.error h)
      | Except.ok _ =>
        match json_href response.body with
        | Except.error h => ([call], Except.error h)
        | Except.ok href =>
          let tail := upload_loop dups tz dirname rest responses_rest
          (call :: tail.1,
            match tail.2 with
            | Except.error h => Except.error h
            | Except.ok items =>
              Except.ok ({ name := filename dups tz info, href := href,
                           height := info.height, width := info.width } :: items))

/-- `DiskClient.upload_files` (lines 100–142 of `src/main.py`): computes the
duplicate-name set, creates the folder (`__create_dir`, a PUT with
`path = dirname`), builds `output_json` with `count = len(files_info)`, then
runs the upload loop.  `now` is the wall-clock value of `time.time()` and
`responses` the oracle of HTTP responses (folder creation first, then one per
record). -/
def upload_files (tz now : Int) (files_info : List FileInfo) (dirname : String)
    (responses : List Response) : List NetCall × Except Halt Manifest :=
  let dups := duplicate_names (files_info.map FileInfo.likes)
  match responses with
  | [] => ([NetCall.diskPut dirname], Except.error (Halt.pyExc "ConnectionError"))
  | r0 :: rest =>
    match response_processing r0 with
    | Except.error h => ([NetCall.diskPut dirname], Except.error h)
    | Except.ok _ =>
      match json_href r0.body with
      | Except.error h => ([NetCall.diskPut dirname], Except.error h)
      | Except.ok folder_href =>
        let tail := upload_loop dups tz dirname files_info rest
        (NetCall.diskPut dirname :: tail.1,
          match tail.2 with
          | Except.error h => Except.error h
          | Except.ok items =>
            Except.ok { href := folder_href, name := dirname, date := now,
                        count := files_info.length, items := items })

/-! ### The entry point -/

/-- Observable outcome of (a stage of) one program run: the network requests
issued, the lines printed on stdout, the content written to `output.json`
(if any), and the process exit status. -/
structure RunResult where
  calls : List NetCall
  printed : List String
  output_file : Option Manifest
  exit_code : Nat
  deriving DecidableEq

/-- Lines 162–168 of `src/main.py` as a function of the fetched record list:
run `upload_files`; on success write the manifest to `output.json` and print
`Done!`; a halt prints its message and terminates before the write. -/
def main_upload_and_write (tz now : Int) (photos_info : List FileInfo) (dirname : String)
    (responses : List Response) : RunResult :=
  match upload_files tz now photos_info dirname responses with
  | (calls, Except.ok manifest) =>
    { calls := calls, printed := ["Done!"], output_file := some manifest, exit_code := 0 }
  | (calls, Except.error h) =>
    { calls := calls, printed := h.message.toList, output_file := none, exit_code := h.exit_code }

/-- The values the `__main__` block reads from `settings.ini` and `input()`. -/
structure MainInputs where
  vk_token : String
  user_id : String
  album_id_input : String
  disk_token : String
  dirname_input : String
  deriving DecidableEq

/-- Lines 151–153 of `src/main.py`: an empty album-id answer defaults to
`'profile'`. -/
def main_album_id (inp : MainInputs) : String :=
  if inp.album_id_input = "" then "profile" else inp.album_id_input

/-- Line 155 of `src/main.py`:
`VKClient(vk_token, user_id, album_id)` — the album id is passed as the
third positional argument, hence bound to `VKClient.__init__`'s `version`
parameter. -/
def main_vk_client (inp : MainInputs) : VKClient :=
  VKClient.init inp.vk_token inp.user_id (main_album_id inp)

/-- The required (non-`self`) positional parameters of
`VKClient.get_photos_info` (line 46 of `src/main.py`). -/
def get_photos_info_params : List String :=
  ["album_id"]

/-- Python positional-argument binding: a call raises `TypeError` unless it
supplies exactly the required positional parameters. -/
def bind_positional_args (required : List String) (args : List String) :
    Except Halt (List (String × String)) :=
  if args.length = required.length then Except.ok (required.zip args)
  else Except.error (Halt.pyExc "TypeError")

/-- The `__main__` block (lines 146–168 of `src/main.py`).  Line 156 is
`vk_client.get_photos_info()` — a call with no argument, modelled by binding
the empty argument list against `get_photos_info_params`; the `TypeError` is
raised before any request is issued. -/
def mainRun (inp : MainInputs) (tz now : Int) (vk_response : Response)
    (disk_responses : List Response) : RunResult :=
  let vk_client := main_vk_client inp
  match bind_positional_args get_photos_info_params [] with
  | Except.error h =>
    { calls := [], printed := h.message.toList, output_file := none, exit_code := h.exit_code }
  | Except.ok bound =>
    let fetch := get_photos_info vk_client ((bound.map Prod.snd).headD "") vk_response
    match fetch.2 with
    | Except.error h =>
      { calls := [fetch.1], printed := h.message.toList, output_file := none,
        exit_code := h.exit_code }
    | Except.ok photos_info =>
      let rest := main_upload_and_write tz now photos_info inp.dirname_input disk_responses
      { calls := fetch.1 :: rest.calls, printed := rest.printed,
        output_file := rest.output_file, exit_code := rest.exit_code }

end Definitions

section Helpers

/-! ### Decimal-rendering lemmas -/

theorem decCharsCore_acc (fuel : Nat) : ∀ (n : Nat) (acc : List Char),
    decCharsCore fuel n acc = decCharsCore fuel n [] ++ acc := by
  induction fuel with
  | zero => intro n acc; simp [decCharsCore]
  | succ fuel ih =>
    intro n acc
    by_cases h : n < 10
    · simp [decCharsCore, h]
    · simp only [decCharsCore, if_neg h]
      rw [ih (n / 10) (Nat.digitChar (n % 10) :: acc), ih (n / 10) [Nat.digitChar (n % 10)]]
      simp

theorem decCharsCore_fuel (n : Nat) : ∀ (fuel fuel' : Nat) (acc : List Char),
    n < fuel → n < fuel' → decCharsCore fuel n acc = decCharsCore fuel' n acc := by
  induction n using Nat.strong_induction_on with
  | _ n ih =>
    intro fuel fuel' acc hf hf'
    obtain ⟨a, rfl⟩ : ∃ a, fuel = a + 1 := ⟨fuel - 1, by omega⟩
    obtain ⟨b, rfl⟩ : ∃ b, fuel' = b + 1 := ⟨fuel' - 1, by omega⟩
    by_cases h : n < 10
    · simp [decCharsCore, h]
    · simp only [decCharsCore, if_neg h]
      exact ih (n / 10) (by omega) a b _ (by omega) (by omega)

theorem decChars_eq_core (fuel n : Nat) (h : n < fuel) :
    decChars n = decCharsCore fuel n [] :=
  decCharsCore_fuel n (n + 1) fuel [] (by omega) h

theorem decChars_lt_ten (n : Nat) (h : n < 10) : decChars n = [Nat.digitChar n] := by
  simp [decChars, decCharsCore, h]

theorem decChars_step (n : Nat) (h : ¬ n < 10) :
    decChars n = decChars (n / 10) ++ [Nat.digitChar (n % 10)] := by
  have h1 : decChars n = decCharsCore (n + 1) n [] := rfl
  rw [h1]
  simp only [decCharsCore, if_neg h]
  rw [decCharsCore_acc]
  congr 1
  exact (decChars_eq_core n (n / 10) (by omega)).symm

theorem digitChar_sub (d : Nat) (h : d < 10) : (Nat.digitChar d).toNat - 48 = d := by
  interval_cases d <;> decide

theorem decodeDec_append_digit (cs : List Char) (c : Char) :
    decodeDec (cs ++ [c]) = decodeDec cs * 10 + (c.toNat - 48) := by
  simp [decodeDec, List.foldl_append]

theorem decodeDec_decChars (n : Nat) : decodeDec (decChars n) = n := by
  induction n using Nat.strong_induction_on with
  | _ n ih =>
    by_cases h : n < 10
    · rw [decChars_lt_ten n h]
      simp [decodeDec]
      exact digitChar_sub n h
    · rw [decChars_step n h, decodeDec_append_digit, ih (n / 10) (by omega),
        digitChar_sub (n % 10) (by omega)]
      omega

theorem decChars_inj {m n : Nat} (h : decChars m = decChars n) : m = n := by
  have := congrArg decodeDec h
  rwa [decodeDec_decChars, decodeDec_decChars] at this

theorem decChars_digit (n : Nat) : ∀ c ∈ decChars n, ∃ d, d < 10 ∧ c = Nat.digitChar d := by
  induction n using Nat.strong_induction_on with
  | _ n ih =>
    by_cases h : n < 10
    · rw [decChars_lt_ten n h]
      intro c hc
      simp at hc
      exact ⟨n, h, hc⟩
    · rw [decChars_step n h]
      intro c hc
      rcases List.mem_append.mp hc with hc | hc
      · exact ih (n / 10) (by omega) c hc
      · simp at hc
        exact ⟨n % 10, by omega, hc⟩

theorem digitChar_not_special : ∀ d, d < 10 →
    Nat.digitChar d ≠ '-' ∧ Nat.digitChar d ≠ '_' := by
  decide

theorem minus_notin_decChars (n : Nat) : '-' ∉ decChars n := by
  intro hmem
  obtain ⟨d, hd, hc⟩ := decChars_digit n '-' hmem
  exact (digitChar_not_special d hd).1 hc.symm

theorem intChars_nonneg (i : Int) (h : 0 ≤ i) : intChars i = decChars i.toNat := by
  simp [intChars, not_lt.mpr h]

theorem minus_notin_intChars (i : Int) (h : 0 ≤ i) : '-' ∉ intChars i := by
  rw [intChars_nonneg i h]
  exact minus_notin_decChars i.toNat

theorem intChars_inj {i j : Int} (h : intChars i = intChars j) : i = j := by
  unfold intChars at h
  split_ifs at h with hi hj hj
  · injection h with _ h2
    have := decChars_inj h2
    omega
  · exfalso
    have hm : '-' ∈ ('-' :: decChars (-i).toNat : List Char) := List.mem_cons_self _ _
    rw [h] at hm
    obtain ⟨d, hd, hc⟩ := decChars_digit j.toNat '-' hm
    exact (digitChar_not_special d hd).1 hc.symm
  · exfalso
    have hm : '-' ∈ ('-' :: decChars (-j).toNat : List Char) := List.mem_cons_self _ _
    rw [← h] at hm
    obtain ⟨d, hd, hc⟩ := decChars_digit i.toNat '-' hm
    exact (digitChar_not_special d hd).1 hc.symm
  · have := decChars_inj h
    omega

theorem decChars_len_one (n : Nat) (h : n < 10) : (decChars n).length = 1 := by
  rw [decChars_lt_ten n h]; rfl

theorem decChars_len_two (n : Nat) (h1 : 10 ≤ n) (h2 : n ≤ 99) : (decChars n).length = 2 := by
  rw [decChars_step n (by omega), decChars_lt_ten (n / 10) (by omega)]
  rfl

theorem pad2Chars_length (n : Int) (h0 : 0 ≤ n) (h99 : n ≤ 99) : (pad2Chars n).length = 2 := by
  unfold pad2Chars
  split_ifs with h
  · rw [intChars_nonneg n h0]
    simp [decChars_len_one n.toNat (by omega)]
  · rw [intChars_nonneg n h0]
    exact decChars_len_two n.toNat (by omega) (by omega)

theorem decodeDec_cons_zero (cs : List Char) : decodeDec ('0' :: cs) = decodeDec cs := by
  simp [decodeDec]

theorem decodeDec_pad2 (n : Int) (h0 : 0 ≤ n) (_h99 : n ≤ 99) :
    decodeDec (pad2Chars n) = n.toNat := by
  unfold pad2Chars
  split_ifs with h
  · rw [intChars_nonneg n h0, decodeDec_cons_zero, decodeDec_decChars]
  · rw [intChars_nonneg n h0, decodeDec_decChars]

theorem pad2Chars_inj {m n : Int} (hm0 : 0 ≤ m) (hm9 : m ≤ 99) (hn0 : 0 ≤ n) (hn9 : n ≤ 99)
    (h : pad2Chars m = pad2Chars n) : m = n := by
  have := congrArg decodeDec h
  rw [decodeDec_pad2 m hm0 hm9, decodeDec_pad2 n hn0 hn9] at this
  omega

theorem dmYChars_inj {d m y d' m' y' : Int}
    (hd0 : 0 ≤ d) (hd9 : d ≤ 99) (hm0 : 0 ≤ m) (hm9 : m ≤ 99)
    (hd0' : 0 ≤ d') (hd9' : d' ≤ 99) (hm0' : 0 ≤ m') (hm9' : m' ≤ 99)
    (h : dmYChars d m y = dmYChars d' m' y') : d = d' ∧ m = m' ∧ y = y' := by
  unfold dmYChars at h
  obtain ⟨h1, h2⟩ := List.append_inj h
    ((pad2Chars_length d hd0 hd9).trans (pad2Chars_length d' hd0' hd9').symm)
  injection h2 with _ h3
  obtain ⟨h4, h5⟩ := List.append_inj h3
    ((pad2Chars_length m hm0 hm9).trans (pad2Chars_length m' hm0' hm9').symm)
  injection h5 with _ h6
  exact ⟨pad2Chars_inj hd0 hd9 hd0' hd9' h1, pad2Chars_inj hm0 hm9 hm0' hm9' h4,
    intChars_inj h6⟩

theorem sep_split {xs xs' r r' : List Char} {c : Char} (hx : c ∉ xs) (hx' : c ∉ xs')
    (h : xs ++ c :: r = xs' ++ c :: r') : xs = xs' ∧ r = r' := by
  induction xs generalizing xs' with
  | nil =>
    cases xs' with
    | nil => simpa using h
    | cons b t =>
      exfalso
      injection h with h1 h2
      exact hx' (h1 ▸ List.mem_cons_self _ _)
  | cons a s ih =>
    cases xs' with
    | nil =>
      exfalso
      injection h with h1 h2
      exact hx (h1 ▸ List.mem_cons_self _ _)
    | cons b t =>
      injection h with h1 h2
      obtain ⟨hs, hr⟩ := ih (fun hm => hx (List.mem_cons_of_mem _ hm))
        (fun hm => hx' (List.mem_cons_of_mem _ hm)) h2
      exact ⟨by rw [h1, hs], hr⟩

/-! ### Calendar-range lemmas -/

theorem daysInYear_cases (y : Int) : daysInYear y = 365 ∨ daysInYear y = 366 := by
  unfold daysInYear
  split <;> simp

theorem yearSearch_range : ∀ (fuel : Nat) (y rem : Int),
    (0 ≤ rem → rem / 365 + 1 ≤ (fuel : Int)) →
    (rem < 0 → (-rem) / 365 + 3 ≤ (fuel : Int)) →
    0 ≤ (yearSearch fuel y rem).2 ∧
      (yearSearch fuel y rem).2 < daysInYear (yearSearch fuel y rem).1 := by
  intro fuel
  induction fuel with
  | zero =>
    intro y rem h1 h2
    exfalso
    rcases lt_or_le rem 0 with h | h
    · have := h2 h; omega
    · have := h1 h; omega
  | succ fuel ih =>
    intro y rem h1 h2
    rw [yearSearch]
    split_ifs with hneg hbig
    · have hr := h2 hneg
      rcases daysInYear_cases (y - 1) with hd | hd
      · rw [hd]
        apply ih
        · intro hc; omega
        · intro hc; omega
      · rw [hd]
        apply ih
        · intro hc; omega
        · intro hc; omega
    · have hr := h1 (by omega)
      rcases daysInYear_cases y with hd | hd
      · rw [hd] at hbig ⊢
        apply ih
        · intro hc; omega
        · intro hc; omega
      · rw [hd] at hbig ⊢
        apply ih
        · intro hc; omega
        · intro hc; omega
    · dsimp only
      exact ⟨by omega, by omega⟩

theorem monthSearch_range : ∀ (lens : List Int) (m rem : Int),
    0 ≤ rem → rem < lens.sum → (∀ l ∈ lens, 1 ≤ l ∧ l ≤ 31) →
    m ≤ (monthSearch lens m rem).1 ∧
      (monthSearch lens m rem).1 ≤ m + lens.length - 1 ∧
      1 ≤ (monthSearch lens m rem).2 ∧ (monthSearch lens m rem).2 ≤ 31 := by
  intro lens
  induction lens with
  | nil =>
    intro m rem h0 hs hb
    simp at hs
    omega
  | cons len rest ih =>
    intro m rem h0 hs hb
    have hlen := hb len (List.mem_cons_self _ _)
    rw [List.sum_cons] at hs
    rw [monthSearch]
    split_ifs with hlt
    · dsimp only
      simp only [List.length_cons]
      omega
    · have := ih (m + 1) (rem - len) (by omega) (by omega)
        (fun l hl => hb l (List.mem_cons_of_mem _ hl))
      simp only [List.length_cons]
      omega

theorem monthLengths_sum (leap : Bool) :
    (monthLengths leap).sum = if leap then 366 else 365 := by
  cases leap <;> decide

theorem monthLengths_mem (leap : Bool) : ∀ l ∈ monthLengths leap, 1 ≤ l ∧ l ≤ 31 := by
  cases leap <;> decide

theorem monthLengths_length (leap : Bool) : (monthLengths leap).length = 12 := by
  cases leap <;> rfl

theorem yearOf_range (tz t : Int) :
    0 ≤ (yearOf tz t).2 ∧ (yearOf tz t).2 < daysInYear (yearOf tz t).1 := by
  unfold yearOf
  apply yearSearch_range
  · intro h; omega
  · intro h; omega

theorem local_date_range (tz t : Int) :
    1 ≤ (local_date tz t).2.1 ∧ (local_date tz t).2.1 ≤ 12 ∧
      1 ≤ (local_date tz t).2.2 ∧ (local_date tz t).2.2 ≤ 31 := by
  have hy := yearOf_range tz t
  have hsum : (yearOf tz t).2 < (monthLengths (isLeap (yearOf tz t).1)).sum := by
    rw [monthLengths_sum]
    unfold daysInYear at hy
    exact hy.2
  have hm := monthSearch_range (monthLengths (isLeap (yearOf tz t).1)) 1 (yearOf tz t).2
    hy.1 hsum (monthLengths_mem _)
  rw [monthLengths_length] at hm
  unfold local_date
  dsimp only
  omega

end Helpers

section NamingHelpers

theorem string_mk_append (a b : List Char) : String.mk a ++ String.mk b = String.mk (a ++ b) :=
  rfl

theorem dash_string : ("-" : String) = String.mk ['-'] :=
  rfl

/-- The assigned name of one record, at the level of character lists. -/
theorem filename_data (dups : List (Option Int)) (tz : Int) (info : FileInfo) :
    filename dups tz info =
      if some info.likes ∈ dups then
        String.mk (intChars info.likes ++ '-' ::
          dmYChars (local_date tz info.date).2.2 (local_date tz info.date).2.1
            (local_date tz info.date).1)
      else String.mk (intChars info.likes) := by
  unfold filename strftime_dmY int_str
  split_ifs with h
  · rw [dash_string, string_mk_append, string_mk_append, List.append_assoc,
      List.singleton_append]
  · rfl

theorem mem_duplicate_names {names : List Int} {a : Int} :
    some a ∈ duplicate_names names ↔ 1 < names.count a := by
  unfold duplicate_names
  rw [List.mem_dedup, List.mem_map]
  constructor
  · rintro ⟨name, hmem, heq⟩
    by_cases hc : 1 < names.count name
    · rw [if_pos hc] at heq
      injection heq with heq
      rwa [heq] at hc
    · rw [if_neg hc] at heq
      exact absurd heq (by simp)
  · intro hc
    refine ⟨a, ?_, by rw [if_pos hc]⟩
    have hpos : 0 < names.count a := by omega
    exact List.count_pos_iff.mp hpos

theorem two_le_count (l : List Int) : ∀ (i j : Nat) (hi : i < l.length) (hj : j < l.length),
    i ≠ j → l.get ⟨i, hi⟩ = l.get ⟨j, hj⟩ → 2 ≤ l.count (l.get ⟨i, hi⟩) := by
  induction l with
  | nil => intro i j hi hj; simp at hi
  | cons x xs ih =>
    intro i j hi hj hij heq
    cases i with
    | zero =>
      cases j with
      | zero => exact absurd rfl hij
      | succ j =>
        have hj' : j < xs.length := by simpa using hj
        have hx : xs.get ⟨j, hj'⟩ = x := heq.symm
        have hmem : x ∈ xs := hx ▸ xs.get_mem j hj'
        have : 0 < xs.count x := List.count_pos_iff.mpr hmem
        show 2 ≤ (x :: xs).count x
        rw [List.count_cons_self]
        omega
    | succ i =>
      have hi' : i < xs.length := by simpa using hi
      cases j with
      | zero =>
        have hx : xs.get ⟨i, hi'⟩ = x := heq
        have hmem : x ∈ xs := hx ▸ xs.get_mem i hi'
        have : 0 < xs.count x := List.count_pos_iff.mpr hmem
        show 2 ≤ (x :: xs).count (xs.get ⟨i, hi'⟩)
        rw [hx, List.count_cons_self]
        omega
      | succ j =>
        have hj' : j < xs.length := by simpa using hj
        have := ih i j hi' hj' (by omega) heq
        show 2 ≤ (x :: xs).count (xs.get ⟨i, hi'⟩)
        rw [List.count_cons]
        split_ifs <;> omega

theorem assignNames_length (tz : Int) (rs : List FileInfo) :
    (assignNames tz rs).length = rs.length := by
  simp [assignNames]

theorem assignNames_get (tz : Int) (rs : List FileInfo) (i : Nat) (hi : i < rs.length) :
    (assignNames tz rs)[i]? =
      some (filename (duplicate_names (rs.map FileInfo.likes)) tz (rs.get ⟨i, hi⟩)) := by
  unfold assignNames
  rw [List.getElem?_map, List.getElem?_eq_getElem hi]
  rfl

theorem map_likes_get (rs : List FileInfo) (i : Nat) (hi : i < rs.length) :
    (rs.map FileInfo.likes).get ⟨i, by simpa using hi⟩ = (rs.get ⟨i, hi⟩).likes := by
  simp

theorem filename_congr (dups : List (Option Int)) (tz : Int) {a b : FileInfo}
    (hl : a.likes = b.likes) (hd : a.date = b.date) :
    filename dups tz a = filename dups tz b := by
  unfold filename strftime_dmY
  rw [hl, hd]

end NamingHelpers

section UploadHelpers

theorem upload_loop_ok (dups : List (Option Int)) (tz : Int) (dirname : String) :
    ∀ (files : List FileInfo) (responses : List Response) (items : List UploadedItem),
    (upload_loop dups tz dirname files responses).2 = Except.ok items →
    (upload_loop dups tz dirname files responses).1 =
      files.map (fun info =>
        NetCall.diskPost (dirname ++ "/" ++ filename dups tz info) info.url) ∧
    items.map (fun it => (it.name, it.height, it.width)) =
      files.map (fun info => (filename dups tz info, info.height, info.width)) := by
  intro files
  induction files with
  | nil =>
    intro responses items h
    simp only [upload_loop] at h
    injection h with h
    subst h
    exact ⟨rfl, rfl⟩
  | cons info rest ih =>
    intro responses items h
    cases responses with
    | nil =>
      exfalso
      simp only [upload_loop] at h
      exact Except.noConfusion h
    | cons r rs =>
      simp only [upload_loop] at h ⊢
      cases hrp : response_processing r with
      | error hh =>
        rw [hrp] at h
        exact absurd h (by simp)
      | ok u =>
        rw [hrp] at h
        dsimp only at h ⊢
        cases hjh : json_href r.body with
        | error hh =>
          rw [hjh] at h
          exact absurd h (by simp)
        | ok href =>
          rw [hjh] at h
          dsimp only at h ⊢
          cases htl : (upload_loop dups tz dirname rest rs).2 with
          | error hh =>
            rw [htl] at h
            exact absurd h (by simp)
          | ok items_rest =>
            rw [htl] at h
            dsimp only at h
            injection h with h
            obtain ⟨hcalls, hitems⟩ := ih rs items_rest htl
            subst h
            constructor
            · rw [List.map_cons, ← hcalls]
            · rw [List.map_cons, List.map_cons, ← hitems]

theorem upload_files_ok (tz now : Int) (files : List FileInfo) (dirname : String)
    (responses : List Response) (m : Manifest)
    (h : (upload_files tz now files dirname responses).2 = Except.ok m) :
    (upload_files tz now files dirname responses).1 =
      NetCall.diskPut dirname ::
        files.map (fun info =>
          NetCall.diskPost
            (dirname ++ "/" ++ filename (duplicate_names (files.map FileInfo.likes)) tz info)
            info.url) ∧
    m.count = files.length ∧
    m.items.map (fun it => (it.name, it.height, it.width)) =
      files.map (fun info =>
        (filename (duplicate_names (files.map FileInfo.likes)) tz info,
          info.height, info.width)) := by
  unfold upload_files at h ⊢
  cases responses with
  | nil => exact absurd h (by simp)
  | cons r0 rest =>
    dsimp only at h ⊢
    cases hrp : response_processing r0 with
    | error hh =>
      rw [hrp] at h
      exact absurd h (by simp)
    | ok u =>
      rw [hrp] at h
      dsimp only at h ⊢
      cases hjh : json_href r0.body with
      | error hh =>
        rw [hjh] at h
        exact absurd h (by simp)
      | ok folder_href =>
        rw [hjh] at h
        dsimp only at h ⊢
        cases htl : (upload_loop (duplicate_names (files.map FileInfo.likes)) tz dirname
            files rest).2 with
        | error hh =>
          rw [htl] at h
          exact absurd h (by simp)
        | ok items =>
          rw [htl] at h
          dsimp only at h
          injection h with h
          obtain ⟨hcalls, hitems⟩ := upload_loop_ok _ _ _ files rest items htl
          subst h
          exact ⟨by rw [hcalls], rfl, hitems⟩

theorem main_upload_and_write_error (tz now : Int) (files : List FileInfo) (dirname : String)
    (responses : List Response) (h : Halt)
    (herr : (upload_files tz now files dirname responses).2 = Except.error h) :
    main_upload_and_write tz now files dirname responses =
      { calls := (upload_files tz now files dirname responses).1,
        printed := h.message.toList, output_file := none, exit_code := h.exit_code } := by
  unfold main_upload_and_write
  rcases hu : upload_files tz now files dirname responses with ⟨calls, res⟩
  rw [hu] at herr
  dsimp only at herr
  subst herr
  rfl

theorem taxonomy_message {h : Halt} (ht : h.is_taxonomy = true) :
    ∃ msg, h.message = some msg := by
  cases h with
  | clientError code => exact ⟨_, rfl⟩
  | serverError code => exact ⟨_, rfl⟩
  | apiError msg => exact ⟨_, rfl⟩
  | pyExc kind => exact absurd ht (by simp [Halt.is_taxonomy])

theorem taxonomy_exit_code {h : Halt} (ht : h.is_taxonomy = true) : h.exit_code = 0 := by
  cases h with
  | clientError code => rfl
  | serverError code => rfl
  | apiError msg => rfl
  | pyExc kind => exact absurd ht (by simp [Halt.is_taxonomy])

end UploadHelpers


section NameInjectionHelpers

theorem map_filename_congr (dups : List (Option Int)) (tz : Int) :
    ∀ (rs1 rs2 : List FileInfo),
    rs1.map (fun r => (r.likes, r.date)) = rs2.map (fun r => (r.likes, r.date)) →
    rs1.map (filename dups tz) = rs2.map (filename dups tz) := by
  intro rs1
  induction rs1 with
  | nil =>
    intro rs2 h
    cases rs2 with
    | nil => rfl
    | cons b t => simp at h
  | cons a s ih =>
    intro rs2 h
    cases rs2 with
    | nil => simp at h
    | cons b t =>
      simp only [List.map_cons, List.cons.injEq] at h
      obtain ⟨hpair, htail⟩ := h
      simp only [List.map_cons, List.cons.injEq]
      exact ⟨filename_congr dups tz (congrArg Prod.fst hpair) (congrArg Prod.snd hpair),
        ih t htail⟩

theorem filename_ne_of_likes_ne (dups : List (Option Int)) (tz : Int) {a b : FileInfo}
    (ha : 0 ≤ a.likes) (hb : 0 ≤ b.likes) (hne : a.likes ≠ b.likes) :
    filename dups tz a ≠ filename dups tz b := by
  rw [filename_data, filename_data]
  split_ifs with h1 h2 h2
  · intro heq
    injection heq with hl
    obtain ⟨hbase, -⟩ := sep_split (minus_notin_intChars _ ha) (minus_notin_intChars _ hb) hl
    exact hne (intChars_inj hbase)
  · intro heq
    injection heq with hl
    apply minus_notin_intChars b.likes hb
    rw [← hl]
    exact List.mem_append.mpr (Or.inr (List.mem_cons_self _ _))
  · intro heq
    injection heq with hl
    apply minus_notin_intChars a.likes ha
    rw [hl]
    exact List.mem_append.mpr (Or.inr (List.mem_cons_self _ _))
  · intro heq
    injection heq with hl
    exact hne (intChars_inj hl)

theorem strftime_ne_of_date_ne (tz : Int) {t1 t2 : Int}
    (h : local_date tz t1 ≠ local_date tz t2) :
    dmYChars (local_date tz t1).2.2 (local_date tz t1).2.1 (local_date tz t1).1 ≠
      dmYChars (local_date tz t2).2.2 (local_date tz t2).2.1 (local_date tz t2).1 := by
  intro heq
  obtain ⟨r1a, r1b, r1c, r1d⟩ := local_date_range tz t1
  obtain ⟨r2a, r2b, r2c, r2d⟩ := local_date_range tz t2
  obtain ⟨hd, hm, hy⟩ := dmYChars_inj (by omega) (by omega) (by omega) (by omega)
    (by omega) (by omega) (by omega) (by omega) heq
  have h2 : (local_date tz t1).2 = (local_date tz t2).2 := Prod.ext hm hd
  exact h (Prod.ext hy h2)

end NameInjectionHelpers

section Claims

/-- C3: for every HTTP response processed by the shared validation
(`response_processing`), a status in 400–499 signals `ClientError`, a status
in 500–599 signals `ServerError`, and a 2xx response whose JSON body carries a
top-level error object signals `ApiError` with the body's error message; each
is terminal — the fetch returns no partial record list and the run writes no
output file. -/
theorem claim_C3 (response : Response) :
    (400 ≤ response.status_code → response.status_code < 500 →
      response_processing response = Except.error (Halt.clientError response.status_code)) ∧
    (500 ≤ response.status_code → response.status_code < 600 →
      response_processing response = Except.error (Halt.serverError response.status_code)) ∧
    (∀ msg response_items href, 200 ≤ response.status_code → response.status_code < 300 →
      response.body = Body.json (some msg) response_items href →
      response_processing response = Except.error (Halt.apiError msg)) ∧
    (∀ client album_id h, response_processing response = Except.error h →
      (get_photos_info client album_id response).2 = Except.error h) ∧
    (∀ tz now files dirname responses h,
      (upload_files tz now files dirname responses).2 = Except.error h →
      (main_upload_and_write tz now files dirname responses).output_file = none) := by
  refine ⟨?_, ?_, ?_, ?_, ?_⟩
  · intro h1 h2
    simp only [response_processing]
    rw [if_pos ⟨h1, h2⟩]
  · intro h1 h2
    simp only [response_processing]
    rw [if_neg (by omega), if_pos ⟨h1, h2⟩]
  · intro msg response_items href h1 h2 hbody
    simp only [response_processing]
    rw [if_neg (by omega), if_neg (by omega), hbody]
  · intro client album_id h hrp
    simp only [get_photos_info]
    rw [hrp]
  · intro tz now files dirname responses h herr
    rw [main_upload_and_write_error tz now files dirname responses h herr]

/-- Witness for C3 at concrete responses: a 404, a 503, a 200 carrying an
error object, and a failed upload run that writes no file. -/
theorem claim_C3_witness :
    response_processing ⟨404, Body.json none none none⟩ =
      Except.error (Halt.clientError 404) ∧
    response_processing ⟨503, Body.notJson⟩ = Except.error (Halt.serverError 503) ∧
    response_processing ⟨200, Body.json (some "User authorization failed") none none⟩ =
      Except.error (Halt.apiError "User authorization failed") ∧
    (main_upload_and_write 0 0 [] "reserve_copy" [⟨404, Body.notJson⟩]).output_file = none :=
  ⟨(claim_C3 ⟨404, Body.json none none none⟩).1 (by decide) (by decide),
   (claim_C3 ⟨503, Body.notJson⟩).2.1 (by decide) (by decide),
   (claim_C3 ⟨200, Body.json (some "User authorization failed") none none⟩).2.2.1
     "User authorization failed" none none (by decide) (by decide) rfl,
   (claim_C3 ⟨404, Body.notJson⟩).2.2.2.2 0 0 [] "reserve_copy" [⟨404, Body.notJson⟩]
     (Halt.clientError 404) rfl⟩

/-- C4 (amended): for every terminal taxonomy error the run prints the
single descriptive line and halts before any output file is written — but the
halt is Python's bare `exit()`, which terminates with exit status 0
(success-equivalent), not a non-zero status. -/
theorem claim_C4 (tz now : Int) (files : List FileInfo) (dirname : String)
    (responses : List Response) (h : Halt)
    (herr : (upload_files tz now files dirname responses).2 = Except.error h)
    (htax : h.is_taxonomy = true) :
    ∃ msg, h.message = some msg ∧
      (main_upload_and_write tz now files dirname responses).printed = [msg] ∧
      (main_upload_and_write tz now files dirname responses).output_file = none ∧
      (main_upload_and_write tz now files dirname responses).exit_code = 0 := by
  obtain ⟨msg, hmsg⟩ := taxonomy_message htax
  have hrw := main_upload_and_write_error tz now files dirname responses h herr
  refine ⟨msg, hmsg, ?_, ?_, ?_⟩
  · rw [hrw, hmsg]
    rfl
  · rw [hrw]
  · rw [hrw]
    exact taxonomy_exit_code htax

/-- Witness for C4 (amended) at a concrete 500 response. -/
theorem claim_C4_witness :
    (upload_files 0 0 [] "reserve_copy" [⟨500, Body.notJson⟩]).2 =
      Except.error (Halt.serverError 500) ∧
    (∃ msg, (Halt.serverError 500).message = some msg ∧
      (main_upload_and_write 0 0 [] "reserve_copy" [⟨500, Body.notJson⟩]).printed = [msg] ∧
      (main_upload_and_write 0 0 [] "reserve_copy" [⟨500, Body.notJson⟩]).output_file = none ∧
      (main_upload_and_write 0 0 [] "reserve_copy" [⟨500, Body.notJson⟩]).exit_code = 0) :=
  ⟨rfl,
   claim_C4 0 0 [] "reserve_copy" [⟨500, Body.notJson⟩] (Halt.serverError 500)
     rfl (by decide)⟩

/-- Counterexample to C4 as stated: at a concrete 404 folder-creation
response the run is terminated by a terminal `ClientError`, the message is
printed and no output file is written, yet the exit status is 0 — the claimed
non-zero-equivalent halt does not hold. -/
theorem claim_C4_counterexample :
    (upload_files 0 0 [] "reserve_copy" [⟨404, Body.notJson⟩]).2 =
      Except.error (Halt.clientError 404) ∧
    (Halt.clientError 404).is_taxonomy = true ∧
    (main_upload_and_write 0 0 [] "reserve_copy" [⟨404, Body.notJson⟩]).printed =
      ["Client error 404"] ∧
    (main_upload_and_write 0 0 [] "reserve_copy" [⟨404, Body.notJson⟩]).output_file = none ∧
    ¬ (main_upload_and_write 0 0 [] "reserve_copy" [⟨404, Body.notJson⟩]).exit_code ≠ 0 := by
  refine ⟨rfl, rfl, by decide, rfl, by decide⟩

/-- C5: after a successful upload pass the returned manifest satisfies
`count = length items`, and the items carry, in exactly the input order, the
assigned name and dimensions of the corresponding input record. -/
theorem claim_C5 (tz now : Int) (files : List FileInfo) (dirname : String)
    (responses : List Response) (m : Manifest)
    (h : (upload_files tz now files dirname responses).2 = Except.ok m) :
    m.count = m.items.length ∧
    m.items.map (fun it => (it.name, it.height, it.width)) =
      files.map (fun info =>
        (filename (duplicate_names (files.map FileInfo.likes)) tz info,
          info.height, info.width)) := by
  obtain ⟨hcalls, hcount, hitems⟩ := upload_files_ok tz now files dirname responses m h
  refine ⟨?_, hitems⟩
  have hlen := congrArg List.length hitems
  simp only [List.length_map] at hlen
  omega

/-- Witness for C5: a one-record upload with successful responses. -/
theorem claim_C5_witness :
    (upload_files 0 0 [⟨7, "u", 0, 800, 600⟩] "d"
        [⟨201, Body.json none none (some "fh")⟩, ⟨201, Body.json none none (some "ih")⟩]).2 =
      Except.ok { href := "fh", name := "d", date := 0, count := 1,
                  items := [{ name := "7", href := "ih", height := 800, width := 600 }] } ∧
    ({ href := "fh", name := "d", date := 0, count := 1,
       items := [{ name := "7", href := "ih", height := 800, width := 600 }] } : Manifest).count =
      ({ href := "fh", name := "d", date := 0, count := 1,
         items := [{ name := "7", href := "ih", height := 800, width := 600 }] } : Manifest).items.length :=
  ⟨rfl,
   (claim_C5 0 0 [⟨7, "u", 0, 800, 600⟩] "d"
     [⟨201, Body.json none none (some "fh")⟩, ⟨201, Body.json none none (some "ih")⟩]
     { href := "fh", name := "d", date := 0, count := 1,
       items := [{ name := "7", href := "ih", height := 800, width := 600 }] }
     rfl).1⟩

/-- C6: a successful `upload_files` run issues exactly N+1 outbound calls:
first the folder-creation PUT for the folder name, then one import-by-URL POST
per record in input order, each targeting `dirname/assignedName` with the
record's source url. -/
theorem claim_C6 (tz now : Int) (files : List FileInfo) (dirname : String)
    (responses : List Response) (m : Manifest)
    (h : (upload_files tz now files dirname responses).2 = Except.ok m) :
    (upload_files tz now files dirname responses).1 =
      NetCall.diskPut dirname ::
        files.map (fun info =>
          NetCall.diskPost
            (dirname ++ "/" ++ filename (duplicate_names (files.map FileInfo.likes)) tz info)
            info.url) ∧
    (upload_files tz now files dirname responses).1.length = files.length + 1 := by
  obtain ⟨hcalls, -, -⟩ := upload_files_ok tz now files dirname responses m h
  refine ⟨hcalls, ?_⟩
  rw [hcalls]
  simp

/-- Witness for C6: the one-record run makes exactly the PUT and one POST. -/
theorem claim_C6_witness :
    (upload_files 0 0 [⟨7, "u", 0, 800, 600⟩] "d"
        [⟨201, Body.json none none (some "fh")⟩, ⟨201, Body.json none none (some "ih")⟩]).2 =
      Except.ok { href := "fh", name := "d", date := 0, count := 1,
                  items := [{ name := "7", href := "ih", height := 800, width := 600 }] } ∧
    (upload_files 0 0 [⟨7, "u", 0, 800, 600⟩] "d"
        [⟨201, Body.json none none (some "fh")⟩, ⟨201, Body.json none none (some "ih")⟩]).1 =
      [NetCall.diskPut "d", NetCall.diskPost "d/7" "u"] :=
  ⟨rfl, by
    have := (claim_C6 0 0 [⟨7, "u", 0, 800, 600⟩] "d"
      [⟨201, Body.json none none (some "fh")⟩, ⟨201, Body.json none none (some "ih")⟩]
      { href := "fh", name := "d", date := 0, count := 1,
        items := [{ name := "7", href := "ih", height := 800, width := 600 }] }
      rfl).1
    rw [this]
    decide⟩

/-- C7: the filename-assignment pass preserves length and order: the output
has the same length as the input and the i-th output name is the name computed
from the i-th input record. -/
theorem claim_C7 (tz : Int) (rs : List FileInfo) :
    (assignNames tz rs).length = rs.length ∧
    ∀ (i : Nat) (hi : i < rs.length),
      (assignNames tz rs)[i]? =
        some (filename (duplicate_names (rs.map FileInfo.likes)) tz (rs.get ⟨i, hi⟩)) :=
  ⟨assignNames_length tz rs, fun i hi => assignNames_get tz rs i hi⟩

/-- Witness for C7 at a concrete two-record input. -/
theorem claim_C7_witness :
    (0 : Nat) < 2 ∧
    (assignNames 0 [⟨7, "a", 0, 1, 1⟩, ⟨9, "b", 0, 1, 1⟩])[0]? =
      some (filename (duplicate_names [7, 9]) 0 ⟨7, "a", 0, 1, 1⟩) :=
  ⟨by decide,
   (claim_C7 0 [⟨7, "a", 0, 1, 1⟩, ⟨9, "b", 0, 1, 1⟩]).2 0 (by decide)⟩

/-- C9: the entry point can never complete a successful run: it constructs
`VKClient` with the album id bound to the API-version parameter `v`, and the
call `get_photos_info()` supplies none of the required positional arguments,
so every execution raises `TypeError` (exit status 1) before any network
request is made, prints nothing on stdout and writes no output file. -/
theorem claim_C9 (inp : MainInputs) (tz now : Int) (vk_response : Response)
    (disk_responses : List Response) :
    (main_vk_client inp).v = main_album_id inp ∧
    mainRun inp tz now vk_response disk_responses =
      { calls := [], printed := [], output_file := none, exit_code := 1 } :=
  ⟨rfl, rfl⟩

/-- C10: the shared validation checks the status before parsing the body:
for statuses in 400–599 the outcome is independent of the body, a 4xx with an
error object still raises `ClientError` (not `ApiError`), a 4xx/5xx with a
non-JSON body raises no decode error, and the body is decoded only for
statuses outside 400–599. -/
theorem claim_C10 (code : Nat) (b b' : Body) :
    (400 ≤ code → code < 600 →
      response_processing ⟨code, b⟩ = response_processing ⟨code, b'⟩) ∧
    (∀ msg response_items href, 400 ≤ code → code < 500 →
      response_processing ⟨code, Body.json (some msg) response_items href⟩ =
        Except.error (Halt.clientError code)) ∧
    (400 ≤ code → code < 600 → ∀ kind,
      response_processing ⟨code, b⟩ ≠ Except.error (Halt.pyExc kind)) ∧
    (code < 400 ∨ 600 ≤ code →
      response_processing ⟨code, Body.notJson⟩ =
        Except.error (Halt.pyExc "JSONDecodeError")) := by
  refine ⟨?_, ?_, ?_, ?_⟩
  · intro h1 h2
    simp only [response_processing]
    by_cases hc : code < 500
    · rw [if_pos ⟨h1, hc⟩, if_pos ⟨h1, hc⟩]
    · have hno4 : ¬ (400 ≤ code ∧ code < 500) := by omega
      have h5 : 500 ≤ code ∧ code < 600 := ⟨by omega, h2⟩
      rw [if_neg hno4, if_pos h5, if_neg hno4, if_pos h5]
  · intro msg response_items href h1 h2
    simp only [response_processing]
    rw [if_pos ⟨h1, h2⟩]
  · intro h1 h2 kind
    simp only [response_processing]
    by_cases hc : code < 500
    · rw [if_pos ⟨h1, hc⟩]
      simp
    · rw [if_neg (by omega), if_pos (⟨by omega, h2⟩ : 500 ≤ code ∧ code < 600)]
      simp
  · intro hout
    simp only [response_processing]
    rw [if_neg (by omega), if_neg (by omega)]

/-- Witness for C10 at concrete inputs: a 404 with an error-object body
behaves exactly like a 404 with a non-JSON body, and a 200 with a non-JSON
body does raise the decode error. -/
theorem claim_C10_witness :
    response_processing ⟨404, Body.json (some "oops") none none⟩ =
      response_processing ⟨404, Body.notJson⟩ ∧
    response_processing ⟨404, Body.json (some "oops") none none⟩ =
      Except.error (Halt.clientError 404) ∧
    response_processing ⟨418, Body.notJson⟩ ≠
      Except.error (Halt.pyExc "JSONDecodeError") ∧
    response_processing ⟨200, Body.notJson⟩ =
      Except.error (Halt.pyExc "JSONDecodeError") :=
  ⟨(claim_C10 404 (Body.json (some "oops") none none) Body.notJson).1 (by decide) (by decide),
   (claim_C10 404 (Body.json (some "oops") none none) Body.notJson).2.1 "oops" none none
     (by decide) (by decide),
   (claim_C10 418 Body.notJson Body.notJson).2.2.1 (by decide) (by decide) "JSONDecodeError",
   (claim_C10 200 Body.notJson Body.notJson).2.2.2 (by decide)⟩

/-- C2: a record whose popularity occurs exactly once keeps the bare decimal
string of its popularity; a record whose popularity occurs more than once gets
that string plus "-" and its zero-padded day_month_year creation date; in
particular popularity [5, 5, 7] with dates 2021-05-01, 2021-05-02, 2021-05-01
yields ["5-01_05_2021", "5-02_05_2021", "7"]. -/
theorem claim_C2 :
    (∀ (tz : Int) (rs : List FileInfo) (i : Nat) (hi : i < rs.length),
      ((rs.map FileInfo.likes).count (rs.get ⟨i, hi⟩).likes = 1 →
        (assignNames tz rs)[i]? = some (int_str (rs.get ⟨i, hi⟩).likes)) ∧
      (1 < (rs.map FileInfo.likes).count (rs.get ⟨i, hi⟩).likes →
        (assignNames tz rs)[i]? =
          some (int_str (rs.get ⟨i, hi⟩).likes ++ "-" ++
            strftime_dmY tz (rs.get ⟨i, hi⟩).date))) ∧
    assignNames 0
        [⟨5, "u1", 1619827200, 800, 600⟩, ⟨5, "u2", 1619913600, 800, 600⟩,
          ⟨7, "u3", 1619827200, 800, 600⟩] =
      ["5-01_05_2021", "5-02_05_2021", "7"] := by
  constructor
  · intro tz rs i hi
    constructor
    · intro hcount
      rw [assignNames_get tz rs i hi]
      have hnot : some (rs.get ⟨i, hi⟩).likes ∉ duplicate_names (rs.map FileInfo.likes) := by
        rw [mem_duplicate_names]
        omega
      simp only [filename]
      rw [if_neg hnot]
    · intro hcount
      rw [assignNames_get tz rs i hi]
      have hmem : some (rs.get ⟨i, hi⟩).likes ∈ duplicate_names (rs.map FileInfo.likes) :=
        mem_duplicate_names.mpr hcount
      simp only [filename]
      rw [if_pos hmem]
  · decide

/-- Witness for C2: in the spec's example, popularity 7 is unique and keeps
its bare decimal name. -/
theorem claim_C2_witness :
    (([⟨5, "u1", 1619827200, 800, 600⟩, ⟨5, "u2", 1619913600, 800, 600⟩,
        ⟨7, "u3", 1619827200, 800, 600⟩] : List FileInfo).map FileInfo.likes).count 7 = 1 ∧
    (assignNames 0
        [⟨5, "u1", 1619827200, 800, 600⟩, ⟨5, "u2", 1619913600, 800, 600⟩,
          ⟨7, "u3", 1619827200, 800, 600⟩])[2]? = some (int_str 7) :=
  ⟨by decide,
   (claim_C2.1 0
     [⟨5, "u1", 1619827200, 800, 600⟩, ⟨5, "u2", 1619913600, 800, 600⟩,
       ⟨7, "u3", 1619827200, 800, 600⟩] 2 (by decide)).1 (by decide)⟩

/-- C8: the filename assignment is a pure function of the popularity values
and creation timestamps in input order — two record sequences agreeing on
`(likes, date)` pointwise get identical name sequences, whatever their urls
and dimensions. -/
theorem claim_C8 (tz : Int) (rs1 rs2 : List FileInfo)
    (h : rs1.map (fun r => (r.likes, r.date)) = rs2.map (fun r => (r.likes, r.date))) :
    assignNames tz rs1 = assignNames tz rs2 := by
  have hlikes : rs1.map FileInfo.likes = rs2.map FileInfo.likes := by
    have h1 := congrArg (List.map Prod.fst) h
    rw [List.map_map, List.map_map] at h1
    exact h1
  unfold assignNames
  rw [hlikes]
  exact map_filename_congr (duplicate_names (rs2.map FileInfo.likes)) tz rs1 rs2 h

/-- Witness for C8: two concrete sequences differing only in urls and sizes
get the same names. -/
theorem claim_C8_witness :
    ([⟨5, "u1", 1619827200, 800, 600⟩] : List FileInfo).map (fun r => (r.likes, r.date)) =
      ([⟨5, "other", 1619827200, 1, 1⟩] : List FileInfo).map (fun r => (r.likes, r.date)) ∧
    assignNames 0 [⟨5, "u1", 1619827200, 800, 600⟩] =
      assignNames 0 [⟨5, "other", 1619827200, 1, 1⟩] :=
  ⟨by decide,
   claim_C8 0 [⟨5, "u1", 1619827200, 800, 600⟩] [⟨5, "other", 1619827200, 1, 1⟩] (by decide)⟩

/-- C1: under the collision policy, if all popularity values are non-negative
and any two records of equal popularity have distinct local calendar dates,
the assigned names are pairwise distinct; conversely two records sharing both
popularity and calendar date receive the same name. -/
theorem claim_C1 (tz : Int) (rs : List FileInfo)
    (hpop : ∀ r ∈ rs, 0 ≤ r.likes) :
    ((∀ (i : Nat) (hi : i < rs.length) (j : Nat) (hj : j < rs.length), i ≠ j →
        (rs.get ⟨i, hi⟩).likes = (rs.get ⟨j, hj⟩).likes →
        local_date tz (rs.get ⟨i, hi⟩).date ≠ local_date tz (rs.get ⟨j, hj⟩).date) →
      ∀ (i : Nat) (hi : i < rs.length) (j : Nat) (hj : j < rs.length), i ≠ j →
        (assignNames tz rs)[i]? ≠ (assignNames tz rs)[j]?) ∧
    (∀ (i : Nat) (hi : i < rs.length) (j : Nat) (hj : j < rs.length), i ≠ j →
      (rs.get ⟨i, hi⟩).likes = (rs.get ⟨j, hj⟩).likes →
      local_date tz (rs.get ⟨i, hi⟩).date = local_date tz (rs.get ⟨j, hj⟩).date →
      (assignNames tz rs)[i]? = (assignNames tz rs)[j]?) := by
  constructor
  · intro hdates i hi j hj hij
    rw [assignNames_get tz rs i hi, assignNames_get tz rs j hj]
    intro heq
    injection heq with heq
    by_cases hl : (rs.get ⟨i, hi⟩).likes = (rs.get ⟨j, hj⟩).likes
    · have hdate := hdates i hi j hj hij hl
      have hcount := two_le_count (rs.map FileInfo.likes) i j
        (by simpa using hi) (by simpa using hj) hij
        (by rw [map_likes_get rs i hi, map_likes_get rs j hj]; exact hl)
      rw [map_likes_get rs i hi] at hcount
      have hmem : some (rs.get ⟨i, hi⟩).likes ∈ duplicate_names (rs.map FileInfo.likes) :=
        mem_duplicate_names.mpr (by omega)
      have hmemj : some (rs.get ⟨j, hj⟩).likes ∈ duplicate_names (rs.map FileInfo.likes) :=
        hl ▸ hmem
      rw [filename_data, filename_data, if_pos hmem, if_pos hmemj] at heq
      injection heq with hlist
      rw [hl] at hlist
      have hsuffix := List.append_cancel_left hlist
      injection hsuffix with _ hdmy
      exact strftime_ne_of_date_ne tz hdate hdmy
    · exact filename_ne_of_likes_ne _ tz (hpop _ (rs.get_mem i hi)) (hpop _ (rs.get_mem j hj))
        hl heq
  · intro i hi j hj hij hl hdate
    rw [assignNames_get tz rs i hi, assignNames_get tz rs j hj]
    have hcount := two_le_count (rs.map FileInfo.likes) i j
      (by simpa using hi) (by simpa using hj) hij
      (by rw [map_likes_get rs i hi, map_likes_get rs j hj]; exact hl)
    rw [map_likes_get rs i hi] at hcount
    have hmem : some (rs.get ⟨i, hi⟩).likes ∈ duplicate_names (rs.map FileInfo.likes) :=
      mem_duplicate_names.mpr (by omega)
    have hmemj : some (rs.get ⟨j, hj⟩).likes ∈ duplicate_names (rs.map FileInfo.likes) :=
      hl ▸ hmem
    rw [filename_data, filename_data, if_pos hmem, if_pos hmemj, hl, hdate]

/-- Witness for C1 at the spec's example input: popularity non-negative,
equal-popularity records have distinct dates, and the first two assigned
names indeed differ. -/
theorem claim_C1_witness :
    (∀ r ∈ ([⟨5, "u1", 1619827200, 800, 600⟩, ⟨5, "u2", 1619913600, 800, 600⟩,
        ⟨7, "u3", 1619827200, 800, 600⟩] : List FileInfo), 0 ≤ r.likes) ∧
    (assignNames 0 [⟨5, "u1", 1619827200, 800, 600⟩, ⟨5, "u2", 1619913600, 800, 600⟩,
        ⟨7, "u3", 1619827200, 800, 600⟩])[0]? ≠
      (assignNames 0 [⟨5, "u1", 1619827200, 800, 600⟩, ⟨5, "u2", 1619913600, 800, 600⟩,
        ⟨7, "u3", 1619827200, 800, 600⟩])[1]? :=
  ⟨by decide,
   (claim_C1 0 [⟨5, "u1", 1619827200, 800, 600⟩, ⟨5, "u2", 1619913600, 800, 600⟩,
       ⟨7, "u3", 1619827200, 800, 600⟩] (by decide)).1 (by decide)
     0 (by decide) 1 (by decide) (by decide)⟩

end Claims
